import Mathlib

/-!
Shallow embedding of the media-synchronized Reels playback engine of the
ehaasjewels storefront, together with proofs about its specified behaviour.

The embedding covers:
* the `AudioManager` class (`src/utils/AudioManager.ts`): its state fields,
  `play`, `stop`, `unload`, `setMuted`, `setVolume`, `fadeTo` and `cleanup`;
  asynchronous interleaving is modelled by explicit interference events
  applied at the await points of `play`;
* the optimized Reels page (the unnamed source file importing `AudioManager`):
  navigation cool-down, price normalization, the media preload/prune cache,
  the music resolver, the first-interaction gating and the video-mute policy;
* the legacy `Reels.tsx` page: its price mapping and its `startPlayback`
  routine, which are compared against the same spec sentences.

JS numbers are modelled as `Int` / `ℚ`, nullable values as `Option`,
DOM/WebAudio node handles as booleans or `Option` records carrying the
observable attributes the spec talks about.
-/

namespace AudioManager

/-- The `SoundState` union type of `AudioManager.ts`. -/
inductive SoundState where
  | idle
  | loading
  | ready
  | playing
  | stopping
  | unloading
deriving DecidableEq, Repr

/-- State of one `AudioManager` instance.  Node handles are represented by
the information the spec reasons about: presence (`Bool`) and, for the gain
node, its current gain value.  `startCount` is a ghost counter incremented
exactly when `sourceNode.start(0)` executes, i.e. when a track becomes
audible.  The `sound` field mirrors the declared-but-never-assigned
`sound: any` member of the class. -/
structure AMState where
  transitionId : Nat
  state : SoundState
  audioContext : Bool
  audioBuffer : Bool
  sourceNode : Bool
  gainNode : Option ℚ
  currentUrl : Option String
  volume : ℚ
  isMuted : Bool
  fadeTimeout : Bool
  sound : Option Unit
  startCount : Nat
deriving DecidableEq, Repr

/-- A freshly constructed `AudioManager` (all fields at their initializers). -/
def AMState.init : AMState :=
  { transitionId := 0
    state := .idle
    audioContext := false
    audioBuffer := false
    sourceNode := false
    gainNode := none
    currentUrl := none
    volume := 1
    isMuted := false
    fadeTimeout := false
    sound := none
    startCount := 0 }

/-- `Math.max(0, Math.min(1, v))`. -/
def clamp01 (v : ℚ) : ℚ := max 0 (min 1 v)

/-- `private cleanup()`: clears the fade timer, closes and nulls the audio
context, nulls buffer/source/gain/url and sets the state to `idle`. -/
def cleanup (s : AMState) : AMState :=
  { s with
    fadeTimeout := false
    audioContext := false
    audioBuffer := false
    sourceNode := false
    gainNode := none
    currentUrl := none
    state := .idle }

/-- `private setVolume(volume)`: clamps and stores the requested volume and,
when a gain node exists, sets its gain to `isMuted ? 0 : volume`. -/
def setVolume (v : ℚ) (s : AMState) : AMState :=
  let vol := clamp01 v
  let target := if s.isMuted then 0 else vol
  { s with volume := vol, gainNode := s.gainNode.map fun _ => target }

/-- `setMuted(muted)`: stores the flag and routes `muted ? 0 : this.volume`
through `setVolume`. -/
def setMuted (m : Bool) (s : AMState) : AMState :=
  let s1 : AMState := { s with isMuted := m }
  setVolume (if m then 0 else s1.volume) s1

/-- Net effect of the animation-frame ramp inside `fadeTo` running to
completion: its last step calls `setVolume` with the target volume. -/
def rampTo (dst : ℚ) (s : AMState) : AMState := setVolume dst s

/-- `private fadeTo(from, to, duration)`: clears any pending fade timer,
then — only if `this.sound` is set — runs the frame-by-frame volume ramp
(which also aborts on `unloading`/`idle`).  `this.sound` is declared but
never assigned anywhere in the class. -/
def fadeTo (src dst : ℚ) (s : AMState) : AMState :=
  let s1 : AMState := { s with fadeTimeout := false }
  match s1.sound with
  | none => s1
  | some _ =>
      if s1.state = .unloading ∨ s1.state = .idle then s1
      else rampTo (src + (dst - src)) s1

/-- `private unload()`: mutes the gain, stops/disconnects and nulls the
source and gain nodes, nulls the buffer, and finally runs `cleanup`. -/
def unload (s : AMState) : AMState :=
  if s.state = .idle then s
  else
    cleanup
      { s with
        state := .unloading
        gainNode := none
        sourceNode := false
        audioBuffer := false }

/-- `stop(fadeOut = true)`: a no-op when idle or when neither a source node
nor a decoded buffer exists; when already `stopping`/`unloading` it merely
waits (no further mutation); otherwise it enters `stopping`, optionally
fades out, and unloads. -/
def stop (fadeOut : Bool) (s : AMState) : AMState :=
  if s.state = .idle ∨ (s.sourceNode = false ∧ s.audioBuffer = false) then s
  else if s.state = .stopping ∨ s.state = .unloading then s
  else
    let s1 : AMState := { s with state := .stopping }
    let s2 := if fadeOut then fadeTo s1.volume 0 s1 else s1
    unload s2

/-- Interference that other tasks can apply to the manager while a `play`
call is suspended at an await point: the entry segment of a newer `play`
call (which increments `transitionId`), or a concurrent `stop()` call. -/
inductive Ev where
  | playEntry
  | stopCall
deriving DecidableEq, Repr

/-- Apply one interference event. -/
def applyEv (e : Ev) (s : AMState) : AMState :=
  match e with
  | .playEntry => { s with transitionId := s.transitionId + 1 }
  | .stopCall => stop true s

/-- Apply a sequence of interference events in order. -/
def applyEvs (evs : List Ev) (s : AMState) : AMState :=
  evs.foldl (fun s e => applyEv e s) s

/-- Outcome oracle for the fallible steps of `play`: the fetch, the decode,
and `sourceNode.start(0)`. -/
inductive PlayOutcome where
  | ok
  | fetchFail
  | decodeFail
  | startFail
deriving DecidableEq, Repr

/-- `play(url, {fadeIn})`.  `i1` is the interference occurring while
`await this.stop()` is suspended, `i2` the interference occurring during the
fetch/decode awaits, `o` the outcome of the fallible steps.  The second
component is the error propagated to the caller as a promise rejection
(`none` = the promise resolves). -/
def play (url : String) (fadeIn : Bool) (i1 i2 : List Ev) (o : PlayOutcome)
    (s0 : AMState) : AMState × Option PlayOutcome :=
  let myTid := s0.transitionId + 1
  let s := { s0 with transitionId := myTid }
  let s := stop true s
  let s := applyEvs i1 s
  if myTid ≠ s.transitionId then (s, none)
  else
    let s : AMState := { s with currentUrl := some url, state := .loading }
    let s : AMState := { s with audioContext := true }
    match o with
    | .fetchFail => (cleanup (applyEvs i2 s), some .fetchFail)
    | .decodeFail => (cleanup (applyEvs i2 s), some .decodeFail)
    | _ =>
        let s := applyEvs i2 s
        let s : AMState := { s with audioBuffer := true }
        if myTid ≠ s.transitionId then (cleanup s, none)
        else
          let s : AMState := { s with state := .ready }
          let s : AMState := { s with sourceNode := true, gainNode := some 1 }
          match o with
          | .startFail => (cleanup s, some .startFail)
          | _ =>
              let s : AMState :=
                { s with startCount := s.startCount + 1, state := .playing }
              let s := if fadeIn then fadeTo 0 s.volume s else setVolume s.volume s
              (s, none)

/-- `dispose()`: `await this.stop(); this.cleanup()`. -/
def dispose (s : AMState) : AMState := cleanup (stop true s)

end AudioManager

namespace ReelsOptimized

/-- Navigation direction of a reel transition request. -/
inductive Dir where
  | next
  | prev
deriving DecidableEq, Repr

/-- The minimum inter-transition interval of the optimized Reels page
(`const scrollCooldown = 900`). -/
def scrollCooldown : Int := 900

/-- Navigation-relevant state of the Reels component: the `lastScrollTime`
ref, the committed `currentReelIndex`, the feed length, and a ghost counter
of committed index changes. -/
structure NavState where
  lastScrollTime : Int
  index : Nat
  len : Nat
  commits : Nat
deriving DecidableEq, Repr

/-- The committed branch of `handleNextReel` / `handlePrevReel`:
`lastScrollTime = now` and a wrap-around index update
(`(prev + 1) % len` resp. `(prev - 1 + len) % len`). -/
def commitNav (d : Dir) (now : Int) (s : NavState) : NavState :=
  { s with
    lastScrollTime := now
    index := match d with
      | .next => (s.index + 1) % s.len
      | .prev => (s.index + s.len - 1) % s.len
    commits := s.commits + 1 }

/-- `handleNextReel` / `handlePrevReel`: a request is dropped when the feed
is empty or when it arrives before the cool-down has elapsed since the last
committed request; otherwise it commits. -/
def handleNav (d : Dir) (now : Int) (s : NavState) : NavState :=
  if s.len = 0 ∨ now - s.lastScrollTime < scrollCooldown then s
  else commitNav d now s

/-- Run a sequence of navigation requests (direction, `Date.now()` stamp). -/
def processReqs (reqs : List (Dir × Int)) (s : NavState) : NavState :=
  reqs.foldl (fun s r => handleNav r.1 r.2 s) s

/-- Requests each spaced at least one cool-down after the previous one
(first one measured against the given `lastScrollTime`). -/
def Spaced : Int → List (Dir × Int) → Prop
  | _, [] => True
  | last, r :: rs => scrollCooldown ≤ r.2 - last ∧ Spaced r.2 rs

/-- Price normalization of `generateReelsFromProducts` in the optimized
Reels page: `base = Number(product.price ?? 0)`, and when the alternate
`sale_price` is present and different, the smaller value becomes the
current price and the larger the compare-at price. -/
def resolvePrice (price : Option ℚ) (salePrice : Option ℚ) : ℚ × Option ℚ :=
  let base := price.getD 0
  match salePrice with
  | none => (base, none)
  | some alt =>
      if alt = base then (base, none)
      else (min base alt, some (max base alt))

end ReelsOptimized

namespace ReelsLegacy

/-- Price mapping of `generateReelsFromProducts` in the legacy `Reels.tsx`:
`price: product.sale_price || product.price`,
`originalPrice: product.sale_price ? product.price : undefined`
(a JS falsy check, so a `sale_price` of 0 falls back to `price`). -/
def resolvePrice (price : ℚ) (salePrice : Option ℚ) : ℚ × Option ℚ :=
  match salePrice with
  | none => (price, none)
  | some alt =>
      if alt = 0 then (price, none)
      else (alt, some price)

end ReelsLegacy

namespace ReelsOptimized

/-- The media fields of a reel that the preload/prune effect looks at:
`posterImage`, `galleryImages`, `videoUrl` and the audio URL
(`music?.url || music_audio_url || music_url`, collapsed to one option). -/
structure CacheReel where
  posterImage : String
  galleryImages : List String
  videoUrl : Option String
  musicUrl : Option String
deriving DecidableEq, Repr

/-- A preloaded video element: the URL it was created for and whether its
`src` has been cleared (and the element unloaded) by eviction. -/
structure VideoRec where
  url : String
  srcCleared : Bool
deriving DecidableEq, Repr

/-- The three caches of the optimized Reels page: `preloadedImagesRef`
(keys), `preloadedVideosRef` (keys plus the elements ever created), and
`prefetchLinksRef`. -/
structure MediaCache where
  images : List String
  videoUrls : List String
  videoElems : List VideoRec
  prefetch : List String
deriving DecidableEq, Repr

/-- `const PRELOAD_AHEAD = 2`. -/
def PRELOAD_AHEAD : Nat := 2

/-- `const PRELOAD_BEHIND = 1`. -/
def PRELOAD_BEHIND : Nat := 1

/-- Default used to read a reel at an index (the effect guards every access
with a presence check, so the default is never observed in range). -/
def emptyReel : CacheReel := { posterImage := "", galleryImages := [], videoUrl := none, musicUrl := none }

/-- The image URLs `indicesToPreload.forEach` requests for one reel: the
poster and the first `min 2` gallery images. -/
def reelImageUrls (r : CacheReel) : List String :=
  r.posterImage :: r.galleryImages.take 2

/-- All URLs the prune step retains for one reel inside the keep window:
poster, first two gallery images, video URL and audio URL. -/
def reelWindowUrls (r : CacheReel) : List String :=
  r.posterImage :: (r.galleryImages.take 2 ++ r.videoUrl.toList ++ r.musicUrl.toList)

/-- Every media URL belonging to a reel. -/
def reelAllUrls (r : CacheReel) : List String :=
  r.posterImage :: (r.galleryImages ++ r.videoUrl.toList ++ r.musicUrl.toList)

/-- `minKeep = Math.max(0, currentReelIndex - PRELOAD_BEHIND)` (on `Nat`,
truncated subtraction is exactly `max 0` of the integer difference). -/
def minKeep (k : Nat) : Nat := k - PRELOAD_BEHIND

/-- `maxKeep = Math.min(reelStates.length - 1, currentReelIndex + PRELOAD_AHEAD)`. -/
def maxKeep (len k : Nat) : Nat := min (len - 1) (k + PRELOAD_AHEAD)

/-- The indices the prune loop `for (i = minKeep; i <= maxKeep; i++)` visits
(all of them are below the feed length). -/
def keepIndices (len k : Nat) : List Nat :=
  (List.range len).filter fun i => minKeep k ≤ i ∧ i ≤ maxKeep len k

/-- `urlsInWindow`: the set of URLs retained by the prune step. -/
def urlsInWindow (reels : List CacheReel) (k : Nat) : List String :=
  (keepIndices reels.length k).flatMap fun i => reelWindowUrls (reels.getD i emptyReel)

/-- The indices `indicesToPreload` collects: `k+1 … k+PRELOAD_AHEAD` below
the length, then `k-1 … k-PRELOAD_BEHIND` at or above 0. -/
def preloadIndices (len k : Nat) : List Nat :=
  (((List.range PRELOAD_AHEAD).map fun i => k + i + 1).filter fun idx => idx < len) ++
    (if 1 ≤ k then [k - 1] else [])

/-- `preloadImage`: insert the URL into the image cache unless present. -/
def preloadImage (url : String) (c : MediaCache) : MediaCache :=
  if url ∈ c.images then c else { c with images := url :: c.images }

/-- `preloadVideo`: unless cached, create an element with `src = url` and
insert it. -/
def preloadVideo (url : String) (c : MediaCache) : MediaCache :=
  if url ∈ c.videoUrls then c
  else
    { c with
      videoUrls := url :: c.videoUrls
      videoElems := { url := url, srcCleared := false } :: c.videoElems }

/-- `addPrefetch`: record a prefetch link unless present. -/
def addPrefetch (url : String) (c : MediaCache) : MediaCache :=
  if url ∈ c.prefetch then c else { c with prefetch := url :: c.prefetch }

/-- The preload pass for one reel: poster and first two gallery images,
the video URL if any, and a prefetch hint for the audio URL if any. -/
def preloadReel (r : CacheReel) (c : MediaCache) : MediaCache :=
  let c := (reelImageUrls r).foldl (fun c u => preloadImage u c) c
  let c := match r.videoUrl with
    | some u => preloadVideo u c
    | none => c
  match r.musicUrl with
  | some u => addPrefetch u c
  | none => c

/-- `indicesToPreload.forEach(...)`. -/
def runPreloads (reels : List CacheReel) (k : Nat) (c : MediaCache) : MediaCache :=
  (preloadIndices reels.length k).foldl
    (fun c i => preloadReel (reels.getD i emptyReel) c) c

/-- The prune pass: drop image keys outside the window; for video keys
outside the window, clear the element `src` (and unload it) and drop the
key.  Prefetch links are deliberately not removed. -/
def pruneCaches (reels : List CacheReel) (k : Nat) (c : MediaCache) : MediaCache :=
  let window := urlsInWindow reels k
  { c with
    images := c.images.filter fun u => u ∈ window
    videoUrls := c.videoUrls.filter fun u => u ∈ window
    videoElems := c.videoElems.map fun rec =>
      if rec.url ∈ c.videoUrls ∧ rec.url ∉ window then { rec with srcCleared := true } else rec }

/-- One run of the preload/prune effect after a settled navigation to
index `k`. -/
def cacheStep (reels : List CacheReel) (k : Nat) (c : MediaCache) : MediaCache :=
  if reels.isEmpty then c else pruneCaches reels k (runPreloads reels k c)

/-- Cache well-formedness: every video element no longer in the cache has
had its `src` cleared. -/
def CacheWF (c : MediaCache) : Prop :=
  ∀ rec ∈ c.videoElems, rec.url ∉ c.videoUrls → rec.srcCleared = true

end ReelsOptimized

namespace ReelsOptimized

/-- The state the first-interaction / tap-to-enable-sound logic of the
optimized Reels page depends on: the `hasUserInteracted` flag, the resolved
music for the current reel, whether `audioManagerRef.current` holds an
engine instance, and the `pendingAutoPlay` ref. -/
structure InteractState where
  hasUserInteracted : Bool
  musicUrl : Option String
  audioMgrPresent : Bool
  pendingAutoPlay : Bool
deriving DecidableEq, Repr

/-- `audioManagerRef = useRef<AudioManager | null>(null)`; the ref is never
assigned anywhere in the component, so the engine reference stays absent. -/
def audioMgrInit : Bool := false

/-- The `onFirstInteract` handler installed once on `pointerdown`/`keydown`:
it records that the user has interacted. -/
def onFirstInteract (p : InteractState) : InteractState :=
  { p with hasUserInteracted := true }

/-- The tap-to-enable-sound overlay condition:
`music?.url && !hasUserInteracted`. -/
def overlayShown (p : InteractState) : Bool :=
  p.musicUrl.isSome && !p.hasUserInteracted

/-- How many `audioManager.play` attempts one run of `startAudioPlayback`
issues: its guards return early when there is no music URL, when the
engine reference is absent, or when `pendingAutoPlay` is set; otherwise it
issues exactly one attempt.  There is no `hasUserInteracted` guard. -/
def engineAttempts (p : InteractState) : Nat :=
  match p.musicUrl with
  | none => 0
  | some _ =>
      if p.audioMgrPresent = false then 0
      else if p.pendingAutoPlay then 0
      else 1

/-- A video element as seen by the playback helpers: its `muted` flag,
`volume`, and whether it is playing. -/
structure VideoEl where
  muted : Bool
  volume : ℚ
  playing : Bool
  currentTime : ℚ
deriving DecidableEq, Repr

/-- `startVideoPlayback` of the optimized page: after waiting for
`canplay`, it forces `muted = true` and `volume = 0`, then attempts
`play()`; on rejection it retries muted (`ok2`).  The video element is
never unmuted. -/
def startVideoPlayback (hasUrl : Bool) (ok1 ok2 : Bool) (v : VideoEl) : VideoEl :=
  if ¬hasUrl then v
  else
    let v1 : VideoEl := { v with muted := true, volume := 0 }
    if ok1 then { v1 with playing := true }
    else
      let v2 : VideoEl := { v1 with muted := true }
      if ok2 then { v2 with playing := true } else v2

/-- The page state `toggleMute` of the optimized page operates on. -/
structure MuteState where
  isMuted : Bool
  audioMgr : Option AudioManager.AMState
  video : Option VideoEl
deriving DecidableEq, Repr

/-- `toggleMute` of the optimized page: flips the flag, forwards it to the
audio engine when present, and always re-forces `video.muted = true`
("Keep video muted always; we use separate audio track"). -/
def toggleMute (p : MuteState) : MuteState :=
  let newMutedState := !p.isMuted
  { isMuted := newMutedState
    audioMgr := p.audioMgr.map (AudioManager.setMuted newMutedState)
    video := p.video.map fun v => { v with muted := true } }

end ReelsOptimized

namespace ReelsLegacy

/-- An HTML audio element as used by the legacy page. -/
structure AudioEl where
  muted : Bool
  playing : Bool
  currentTime : ℚ
deriving DecidableEq, Repr

/-- The slice of legacy `Reels.tsx` component state that `startPlayback`
reads and writes. -/
structure PageState where
  video : Option ReelsOptimized.VideoEl
  audio : Option AudioEl
  musicUrl : Option String
  videoUrl : Option String
  isMuted : Bool
  isPlaying : Bool
  pendingAutoPlay : Bool
deriving DecidableEq, Repr

/-- Play-attempt outcomes for the legacy `startPlayback` sequence: the
unmuted and muted attempts of `startAudioPlayback`, the video `play()`, and
the unmuted and muted attempts of the final audio/video sync block. -/
structure PlayOutcomes where
  audioUnmuted : Bool
  audioMuted : Bool
  video : Bool
  syncUnmuted : Bool
  syncMuted : Bool
deriving DecidableEq, Repr

/-- Legacy `startAudioPlayback`: try `audio.play()` unmuted; on rejection
retry muted; record the resulting mute flag. -/
def startAudioPlayback (o : PlayOutcomes) (p : PageState) : PageState :=
  match p.audio with
  | none => p
  | some a =>
      if p.musicUrl.isNone ∨ p.pendingAutoPlay then p
      else
        let a1 : AudioEl := { a with muted := false }
        if o.audioUnmuted then
          { p with audio := some { a1 with playing := true }, isMuted := false }
        else
          let a2 : AudioEl := { a1 with muted := true }
          if o.audioMuted then
            { p with audio := some { a2 with playing := true }, isMuted := true }
          else { p with audio := some a2 }

/-- Legacy `startVideoPlayback`: start muted, and on success restore the
current `isMuted` flag onto the video element. -/
def startVideoPlayback (o : PlayOutcomes) (p : PageState) : PageState :=
  match p.video with
  | none => p
  | some v =>
      if p.videoUrl.isNone then p
      else
        let v1 : ReelsOptimized.VideoEl := { v with muted := true }
        if o.video then
          { p with
            video := some { v1 with muted := p.isMuted, playing := true }
            isPlaying := true }
        else { p with video := some v1 }

/-- The audio/video sync block at the end of legacy `startPlayback`: when a
video element, an audio element and a music URL are all present, it aligns
the audio clock, tries an unmuted `audio.play()` and — on success or after
the muted fallback succeeds — sets `video.muted = false`. -/
def syncBlock (o : PlayOutcomes) (p : PageState) : PageState :=
  match p.video, p.audio with
  | some v, some a =>
      if p.musicUrl.isNone then p
      else
        let a1 : AudioEl := { a with currentTime := v.currentTime, muted := false }
        if o.syncUnmuted then
          { p with
            audio := some { a1 with playing := true }
            video := some { v with muted := false }
            isMuted := false }
        else
          let a2 : AudioEl := { a1 with muted := true }
          if o.syncMuted then
            { p with
              audio := some { a2 with playing := true }
              video := some { v with muted := false }
              isMuted := false }
          else { p with audio := some a2, isPlaying := false }
  | _, _ => p

/-- Legacy `startPlayback`: audio first (when music is resolved), then
video (when present), then the sync block. -/
def startPlayback (o : PlayOutcomes) (p : PageState) : PageState :=
  let p1 := if p.musicUrl.isSome then startAudioPlayback o p else p
  let p2 := if p1.videoUrl.isSome then startVideoPlayback o p1 else p1
  syncBlock o p2

end ReelsLegacy

namespace ReelsOptimized

/-- A row of the `product_music` table as selected by `fetchMusic`. -/
structure MusicRow where
  product_id : Int
  is_active : Bool
  audio_url : Option String
  title : Option String
  artist : Option String
  start_at_seconds : Option Int
  end_at_seconds : Option Int
  rowPrio : Int
deriving DecidableEq, Repr

/-- The resolved music value stored by `setMusic`. -/
structure MusicSel where
  url : String
  title : String
  artist : String
  startAt : Option Int
  endAt : Option Int
deriving DecidableEq, Repr

/-- JS `x || d` on an optional string field. -/
def jsOrStr (s : Option String) (d : String) : String :=
  match s with
  | none => d
  | some t => if t = "" then d else t

/-- The raw product identifier `currentReel.productId ?? currentReel.primaryProductId`:
either already a number or a string still to be converted. -/
inductive PidRaw where
  | num (n : Int)
  | str (s : String)
deriving DecidableEq, Repr

/-- `Number(s)` on the id strings occurring here (canonical decimal digit
strings); any non-numeric string yields `NaN`, modelled as `none`. -/
def jsNumber (s : String) : Option Int :=
  if s.data ≠ [] ∧ s.data.all Char.isDigit then
    some (s.data.foldl (fun n c => 10 * n + ((c.toNat : Int) - 48)) 0)
  else none

/-- `typeof raw === 'string' ? Number(raw) : raw`, with `NaN` as `none`. -/
def toNumberPid : PidRaw → Option Int
  | .num n => some n
  | .str s => jsNumber s

/-- Priority order used by `order('priority', { ascending: true })`. -/
def prioLE (a b : MusicRow) : Prop := a.rowPrio ≤ b.rowPrio

instance : DecidableRel prioLE := fun a b => by
  unfold prioLE; infer_instance

/-- The Supabase query of `fetchMusic`:
`from('product_music').eq('product_id', pid).eq('is_active', true)
.order('priority', { ascending: true }).limit(1)`, modelled as a stable
sort of the matching rows followed by `take 1`. -/
def queryProductMusic (db : List MusicRow) (pid : Int) : List MusicRow :=
  ((db.filter fun r => r.product_id = pid ∧ r.is_active = true).insertionSort prioLE).take 1

/-- `fetchMusic` (everything after the embedded-music short-circuit):
missing product id → no music without querying; non-numeric id → no music
without querying; query error → no music; no matching active row or a row
without `audio_url` → no music; otherwise the first row wins.  The second
component records whether the lookup query was issued. -/
def fetchMusic (pidRaw : Option PidRaw) (db : List MusicRow) (queryErr : Bool) :
    Option MusicSel × Bool :=
  match pidRaw with
  | none => (none, false)
  | some raw =>
      match toNumberPid raw with
      | none => (none, false)
      | some pid =>
          if queryErr then (none, true)
          else
            match (queryProductMusic db pid).head? with
            | none => (none, true)
            | some row =>
                match row.audio_url with
                | none => (none, true)
                | some u =>
                    (some
                      { url := u
                        title := jsOrStr row.title "Background Music"
                        artist := jsOrStr row.artist "Ehsaas Jewels"
                        startAt := some (row.start_at_seconds.getD 0)
                        endAt := row.end_at_seconds }, true)

/-- Embedded music data carried by a reel: url, optional title and artist. -/
structure EmbeddedMusic where
  url : String
  title : Option String
  artist : Option String
deriving DecidableEq, Repr

/-- The music-resolution effect: when the current reel carries embedded
`music.url` it is used directly, otherwise `fetchMusic` runs. -/
def resolveMusic (embedded : Option EmbeddedMusic) (pidRaw : Option PidRaw)
    (db : List MusicRow) (queryErr : Bool) : Option MusicSel × Bool :=
  match embedded with
  | some m =>
      (some
        { url := m.url
          title := jsOrStr m.title "Background Music"
          artist := jsOrStr m.artist "Ehsaas Jewels"
          startAt := none
          endAt := none }, false)
  | none => fetchMusic pidRaw db queryErr

end ReelsOptimized

namespace AudioManager

/-- The gain the listener hears (`isMuted ? 0 : volume`). -/
def effectiveVolume (s : AMState) : ℚ := if s.isMuted then 0 else s.volume

theorem stop_transitionId (f : Bool) (s : AMState) :
    (stop f s).transitionId = s.transitionId := by
  unfold stop
  split
  · rfl
  · split
    · rfl
    · cases hs : s.sound <;>
        cases f <;>
          simp [fadeTo, hs, rampTo, setVolume, unload, cleanup]

theorem stop_startCount (f : Bool) (s : AMState) :
    (stop f s).startCount = s.startCount := by
  unfold stop
  split
  · rfl
  · split
    · rfl
    · cases hs : s.sound <;>
        cases f <;>
          simp [fadeTo, hs, rampTo, setVolume, unload, cleanup]

theorem stop_sound (f : Bool) (s : AMState) : (stop f s).sound = s.sound := by
  unfold stop
  split
  · rfl
  · split
    · rfl
    · cases hs : s.sound <;>
        cases f <;>
          simp [fadeTo, hs, rampTo, setVolume, unload, cleanup]

theorem stop_volume (f : Bool) (s : AMState) (h : s.sound = none) :
    (stop f s).volume = s.volume := by
  unfold stop
  split
  · rfl
  · split
    · rfl
    · cases f <;> simp [fadeTo, h, unload, cleanup]

theorem stop_noNodes (f : Bool) (s : AMState) (h1 : s.sourceNode = false)
    (h2 : s.audioBuffer = false) : stop f s = s := by
  unfold stop
  rw [if_pos (Or.inr ⟨h1, h2⟩)]

end AudioManager

namespace AudioManager

theorem applyEvs_transitionId (evs : List Ev) (s : AMState) :
    (applyEvs evs s).transitionId = s.transitionId + evs.count .playEntry := by
  induction evs generalizing s with
  | nil => simp [applyEvs]
  | cons e evs ih =>
      cases e with
      | playEntry =>
          simp [applyEvs, List.foldl_cons, applyEv] at ih ⊢
          rw [ih]
          simp [List.count_cons]
          omega
      | stopCall =>
          simp only [applyEvs, List.foldl_cons, applyEv] at ih ⊢
          rw [ih, stop_transitionId]
          simp [List.count_cons]

theorem applyEvs_startCount (evs : List Ev) (s : AMState) :
    (applyEvs evs s).startCount = s.startCount := by
  induction evs generalizing s with
  | nil => rfl
  | cons e evs ih =>
      cases e with
      | playEntry => simpa [applyEvs, List.foldl_cons, applyEv] using ih _
      | stopCall =>
          simp only [applyEvs, List.foldl_cons, applyEv] at ih ⊢
          rw [ih, stop_startCount]

theorem applyEvs_sound (evs : List Ev) (s : AMState) :
    (applyEvs evs s).sound = s.sound := by
  induction evs generalizing s with
  | nil => rfl
  | cons e evs ih =>
      cases e with
      | playEntry => simpa [applyEvs, List.foldl_cons, applyEv] using ih _
      | stopCall =>
          simp only [applyEvs, List.foldl_cons, applyEv] at ih ⊢
          rw [ih, stop_sound]

theorem applyEvs_volume (evs : List Ev) (s : AMState) (h : s.sound = none) :
    (applyEvs evs s).volume = s.volume := by
  induction evs generalizing s with
  | nil => rfl
  | cons e evs ih =>
      cases e with
      | playEntry =>
          simp only [applyEvs, List.foldl_cons, applyEv] at ih ⊢
          exact ih { s with transitionId := s.transitionId + 1 } h
      | stopCall =>
          simp only [applyEvs, List.foldl_cons, applyEv] at ih ⊢
          rw [ih _ (by rw [stop_sound]; exact h), stop_volume _ _ h]

theorem applyEvs_noNodes (evs : List Ev) (s : AMState) (h1 : s.sourceNode = false)
    (h2 : s.audioBuffer = false) :
    applyEvs evs s = { s with transitionId := s.transitionId + evs.count .playEntry } := by
  induction evs generalizing s with
  | nil => simp [applyEvs]
  | cons e evs ih =>
      cases e with
      | playEntry =>
          simp only [applyEvs, List.foldl_cons, applyEv] at ih ⊢
          rw [ih { s with transitionId := s.transitionId + 1 } h1 h2]
          rw [List.count_cons_self]
          rw [show s.transitionId + 1 + List.count Ev.playEntry evs
              = s.transitionId + (List.count Ev.playEntry evs + 1) by omega]
      | stopCall =>
          simp only [applyEvs, List.foldl_cons, applyEv] at ih ⊢
          rw [stop_noNodes _ _ h1 h2, ih _ h1 h2]
          simp [List.count_cons]

end AudioManager

namespace AudioManager

/-- Typical inter-operation states of the manager: `stopping`/`unloading`
and `ready` are transient inside an operation, an idle or still-loading
manager has no nodes and no decoded buffer, and a playing manager has a
live source node. -/
def Quiescent (s : AMState) : Prop :=
  (s.state = .idle ∨ s.state = .loading ∨ s.state = .playing) ∧
  ((s.state = .idle ∨ s.state = .loading) →
    s.sourceNode = false ∧ s.audioBuffer = false ∧ s.gainNode = none) ∧
  (s.state = .playing → s.sourceNode = true)

theorem stop_clears (s : AMState) (h : Quiescent s) :
    (stop true s).sourceNode = false ∧ (stop true s).audioBuffer = false ∧
      (stop true s).gainNode = none := by
  obtain ⟨hs, hin, hp⟩ := h
  rcases hs with h1 | h1 | h1
  · obtain ⟨a, b, c⟩ := hin (Or.inl h1)
    rw [stop_noNodes _ _ a b]
    exact ⟨a, b, c⟩
  · obtain ⟨a, b, c⟩ := hin (Or.inr h1)
    rw [stop_noNodes _ _ a b]
    exact ⟨a, b, c⟩
  · have hsrc := hp h1
    unfold stop
    rw [if_neg, if_neg]
    · cases hsound : s.sound <;>
        simp [fadeTo, hsound, rampTo, setVolume, unload, cleanup, h1]
    · rw [h1]; simp
    · rw [h1, hsrc]; simp

end AudioManager

namespace AudioManager

/-- C1 counterexample: a `stop()` call arriving while `play`'s fetch/decode
is in flight does not bump the transition counter (only `play` does), so
the stale completion is NOT discarded: the source node is started and the
track becomes audible (`startCount` goes from 0 to 1, state `playing`). -/
theorem play_not_discarded_after_concurrent_stop :
    (play "track.mp3" false [] [.stopCall] .ok AMState.init).1.startCount = 1 ∧
    (play "track.mp3" false [] [.stopCall] .ok AMState.init).1.state = .playing ∧
    (play "track.mp3" false [] [.stopCall] .ok AMState.init).2 = none := by
  decide

/-- C1 (amended): if a newer `play` call arrives before the fetch/decode of
a `play(url)` call completes (stamping a larger transition id), the stale
completion is discarded: the source node is never started (`startCount`
unchanged, so the superseded track never becomes audible), no playable
graph survives (source/buffer/gain all cleared) and no error is surfaced. -/
theorem play_superseded_by_newer_play_never_audible
    (s : AMState) (url : String) (fI : Bool) (i1 i2 : List Ev)
    (hq : Quiescent s) (hm : Ev.playEntry ∈ i1 ∨ Ev.playEntry ∈ i2) :
    (play url fI i1 i2 .ok s).1.startCount = s.startCount ∧
    (play url fI i1 i2 .ok s).1.sourceNode = false ∧
    (play url fI i1 i2 .ok s).1.audioBuffer = false ∧
    (play url fI i1 i2 .ok s).1.gainNode = none ∧
    (play url fI i1 i2 .ok s).2 = none := by
  have hqt : Quiescent { s with transitionId := s.transitionId + 1 } := hq
  have hclear := stop_clears _ hqt
  have htid := stop_transitionId true { s with transitionId := s.transitionId + 1 }
  have e1 := applyEvs_noNodes i1 _ hclear.1 hclear.2.1
  rcases Nat.eq_zero_or_pos (i1.count Ev.playEntry) with hc1 | hc1
  · -- the newer play arrived during fetch/decode
    have hnotin : Ev.playEntry ∉ i1 := by
      intro hin
      rw [List.count_eq_zero] at hc1
      exact hc1 hin
    have hmem2 : Ev.playEntry ∈ i2 := hm.resolve_left hnotin
    have hc2 : 0 < i2.count Ev.playEntry := List.count_pos_iff.mpr hmem2
    have hpass : ¬(s.transitionId + 1 ≠
        (applyEvs i1 (stop true { s with transitionId := s.transitionId + 1 })).transitionId) := by
      simp [applyEvs_transitionId, htid, hc1]
    have hv1 : (applyEvs i1 (stop true { s with transitionId := s.transitionId + 1 })).sourceNode
        = false := by rw [e1]; exact hclear.1
    have hv2 : (applyEvs i1 (stop true { s with transitionId := s.transitionId + 1 })).audioBuffer
        = false := by rw [e1]; exact hclear.2.1
    have hne2 : s.transitionId + 1 ≠
        (applyEvs i2
          { applyEvs i1 (stop true { s with transitionId := s.transitionId + 1 }) with
            currentUrl := some url, state := .loading, audioContext := true }).transitionId := by
      rw [applyEvs_transitionId]
      have hmid : ({ applyEvs i1 (stop true { s with transitionId := s.transitionId + 1 }) with
          currentUrl := some url, state := .loading, audioContext := true }).transitionId
          = s.transitionId + 1 := by
        show (applyEvs i1 (stop true { s with transitionId := s.transitionId + 1 })).transitionId
          = s.transitionId + 1
        simp [applyEvs_transitionId, htid, hc1]
      rw [hmid]
      omega
    simp only [play, if_neg hpass, if_pos hne2]
    simp [cleanup, applyEvs_startCount, stop_startCount]
  · -- the newer play arrived while the internal stop() was suspended
    have hne : s.transitionId + 1 ≠
        (applyEvs i1 (stop true { s with transitionId := s.transitionId + 1 })).transitionId := by
      rw [applyEvs_transitionId, htid]
      show s.transitionId + 1 ≠ s.transitionId + 1 + List.count Ev.playEntry i1
      omega
    simp only [play, if_pos hne]
    simp [e1, applyEvs_startCount, stop_startCount, hclear.1, hclear.2.1, hclear.2.2]

/-- C1 witness: the amended theorem applied to a freshly constructed
manager with a newer play entry arriving during the decode await. -/
theorem play_superseded_witness :
    (play "a.mp3" true [] [.playEntry] .ok AMState.init).1.startCount = AMState.init.startCount ∧
    (play "a.mp3" true [] [.playEntry] .ok AMState.init).1.sourceNode = false ∧
    (play "a.mp3" true [] [.playEntry] .ok AMState.init).1.audioBuffer = false ∧
    (play "a.mp3" true [] [.playEntry] .ok AMState.init).1.gainNode = none ∧
    (play "a.mp3" true [] [.playEntry] .ok AMState.init).2 = none :=
  play_superseded_by_newer_play_never_audible AMState.init "a.mp3" true [] [.playEntry]
    ⟨Or.inl rfl, fun _ => ⟨rfl, rfl, rfl⟩, fun h => by exact absurd h (by decide)⟩
    (Or.inr (List.mem_singleton.mpr rfl))

end AudioManager

namespace AudioManager

/-- C2: the claim fails and the code is the slip.  `setMuted(true)` routes
a target of 0 through `setVolume`, which overwrites the stored
`this.volume` with 0, so `setMuted(false)` can only restore 0: after
`setMuted(true); setMuted(false)` the stored volume, the effective volume
and the gain are all 0 for every prior state — in particular after a
successful `play` at the default target volume 1 (the claim expects the
effective volume to return to 1). -/
theorem setMuted_roundtrip_zeroes_volume :
    (∀ s : AMState,
        (setMuted false (setMuted true s)).volume = 0 ∧
        effectiveVolume (setMuted false (setMuted true s)) = 0 ∧
        (setMuted false (setMuted true s)).gainNode = s.gainNode.map fun _ => (0 : ℚ)) ∧
    ((play "track.mp3" false [] [] .ok AMState.init).1.volume = 1 ∧
      effectiveVolume (setMuted false (setMuted true
        (play "track.mp3" false [] [] .ok AMState.init).1)) = 0) := by
  constructor
  · intro s
    refine ⟨?_, ?_, ?_⟩
    · simp [setMuted, setVolume, clamp01]
    · simp [setMuted, setVolume, clamp01, effectiveVolume]
    · cases hg : s.gainNode <;> simp [setMuted, setVolume, clamp01, hg]
  · constructor <;> decide

theorem fadeTo_of_sound_none (v0 v1 : ℚ) (s : AMState) (h : s.sound = none) :
    fadeTo v0 v1 s = { s with fadeTimeout := false } := by
  unfold fadeTo
  simp [h]

theorem fadeTo_sound (v0 v1 : ℚ) (s : AMState) : (fadeTo v0 v1 s).sound = s.sound := by
  unfold fadeTo
  cases h : s.sound with
  | none => simp [h]
  | some u =>
      simp only [h]
      split
      · rfl
      · rfl

theorem play_sound (url : String) (fI : Bool) (i1 i2 : List Ev) (o : PlayOutcome)
    (s : AMState) : (play url fI i1 i2 o s).1.sound = s.sound := by
  have hbase : (applyEvs i1 (stop true { s with transitionId := s.transitionId + 1 })).sound
      = s.sound := by rw [applyEvs_sound, stop_sound]
  cases o
  case ok =>
    simp only [play]
    split
    · exact hbase
    · split
      · simp [cleanup, applyEvs_sound, stop_sound, hbase]
      · cases fI <;> simp [fadeTo_sound, setVolume, applyEvs_sound, stop_sound, hbase]
  case fetchFail =>
    simp only [play]
    split
    · exact hbase
    · simp [cleanup, applyEvs_sound, stop_sound, hbase]
  case decodeFail =>
    simp only [play]
    split
    · exact hbase
    · simp [cleanup, applyEvs_sound, stop_sound, hbase]
  case startFail =>
    simp only [play]
    split
    · exact hbase
    · split <;> simp [cleanup, applyEvs_sound, stop_sound, hbase]

/-- C10: `fadeTo` checks `this.sound`, a field that is declared but never
assigned (every operation preserves it), so from any state with
`sound = none` a fade resolves immediately with no volume ramp:
`stop(fadeOut = true)` performs exactly the same state changes as
`stop(fadeOut = false)`, and `play(url, {fadeIn: true})` never touches the
stored volume. -/
theorem fadeTo_immediate_no_ramp (s : AMState) :
    ((∀ f, (stop f s).sound = s.sound) ∧
      (∀ m, (setMuted m s).sound = s.sound) ∧
      (∀ url fI i1 i2 o, (play url fI i1 i2 o s).1.sound = s.sound)) ∧
    (s.sound = none →
      (∀ v0 v1, fadeTo v0 v1 s = { s with fadeTimeout := false }) ∧
      stop true s = stop false s ∧
      (∀ url i1 i2 o, (play url true i1 i2 o s).1.volume = s.volume)) := by
  refine ⟨⟨fun f => stop_sound f s, fun m => rfl,
    fun url fI i1 i2 o => play_sound url fI i1 i2 o s⟩, ?_⟩
  intro h
  refine ⟨fun v0 v1 => fadeTo_of_sound_none v0 v1 s h, ?_, ?_⟩
  · unfold stop
    by_cases hcond : s.state = .idle ∨ (s.sourceNode = false ∧ s.audioBuffer = false)
    · rw [if_pos hcond, if_pos hcond]
    · by_cases hcond2 : s.state = .stopping ∨ s.state = .unloading
      · rw [if_neg hcond, if_neg hcond, if_pos hcond2, if_pos hcond2]
      · rw [if_neg hcond, if_neg hcond, if_neg hcond2, if_neg hcond2]
        simp [fadeTo_of_sound_none, h, unload, cleanup]
  · intro url i1 i2 o
    cases o
    case ok =>
      simp only [play]
      split
      · simp [applyEvs_volume, applyEvs_sound, stop_sound, stop_volume, h]
      · split
        · simp [cleanup, applyEvs_volume, applyEvs_sound, stop_sound, stop_volume, h]
        · simp [cleanup, fadeTo_of_sound_none, applyEvs_volume, applyEvs_sound, stop_sound,
            stop_volume, h]
    case fetchFail =>
      simp only [play]
      split
      · simp [applyEvs_volume, applyEvs_sound, stop_sound, stop_volume, h]
      · simp [cleanup, applyEvs_volume, applyEvs_sound, stop_sound, stop_volume, h]
    case decodeFail =>
      simp only [play]
      split
      · simp [applyEvs_volume, applyEvs_sound, stop_sound, stop_volume, h]
      · simp [cleanup, applyEvs_volume, applyEvs_sound, stop_sound, stop_volume, h]
    case startFail =>
      simp only [play]
      split
      · simp [applyEvs_volume, applyEvs_sound, stop_sound, stop_volume, h]
      · split <;>
          simp [cleanup, applyEvs_volume, applyEvs_sound, stop_sound, stop_volume, h]

end AudioManager

namespace AudioManager

/-- C3: whenever `play` surfaces an error (fetch, decode or playback-start
failure), the surfaced error is exactly the failing step's error, the final
state is `idle` with context, buffer, source, gain and url all cleared, and
the source was never started; and every failing outcome that is not
superseded by a newer play is indeed propagated as a rejection. -/
theorem play_failure_cleans_up_and_propagates :
    (∀ url fI i1 i2 o (s s' : AMState) (e : PlayOutcome),
        play url fI i1 i2 o s = (s', some e) →
        e = o ∧ s'.state = .idle ∧ s'.audioContext = false ∧ s'.audioBuffer = false ∧
          s'.sourceNode = false ∧ s'.gainNode = none ∧ s'.currentUrl = none ∧
          s'.startCount = s.startCount) ∧
    (∀ url fI i1 i2 o (s : AMState), o ≠ .ok → Ev.playEntry ∉ i1 → Ev.playEntry ∉ i2 →
        (play url fI i1 i2 o s).2 = some o) := by
  constructor
  · intro url fI i1 i2 o s s' e h
    cases o
    case ok =>
      simp only [play] at h
      split at h
      · simp at h
      · split at h
        · simp at h
        · simp at h
    case fetchFail =>
      simp only [play] at h
      split at h
      · simp at h
      · rw [Prod.mk.injEq] at h
        obtain ⟨hs', he⟩ := h
        injection he with he'
        subst he'
        subst hs'
        refine ⟨rfl, rfl, rfl, rfl, rfl, rfl, rfl, ?_⟩
        simp [cleanup, applyEvs_startCount, stop_startCount]
    case decodeFail =>
      simp only [play] at h
      split at h
      · simp at h
      · rw [Prod.mk.injEq] at h
        obtain ⟨hs', he⟩ := h
        injection he with he'
        subst he'
        subst hs'
        refine ⟨rfl, rfl, rfl, rfl, rfl, rfl, rfl, ?_⟩
        simp [cleanup, applyEvs_startCount, stop_startCount]
    case startFail =>
      simp only [play] at h
      split at h
      · simp at h
      · split at h
        · simp at h
        · rw [Prod.mk.injEq] at h
          obtain ⟨hs', he⟩ := h
          injection he with he'
          subst he'
          subst hs'
          refine ⟨rfl, rfl, rfl, rfl, rfl, rfl, rfl, ?_⟩
          simp [cleanup, applyEvs_startCount, stop_startCount]
  · intro url fI i1 i2 o s ho h1 h2
    have hc1 : i1.count Ev.playEntry = 0 := List.count_eq_zero.mpr h1
    have hc2 : i2.count Ev.playEntry = 0 := List.count_eq_zero.mpr h2
    have htid := stop_transitionId true { s with transitionId := s.transitionId + 1 }
    have hpass : ¬(s.transitionId + 1 ≠
        (applyEvs i1 (stop true { s with transitionId := s.transitionId + 1 })).transitionId) := by
      simp [applyEvs_transitionId, htid, hc1]
    cases o
    case ok => exact absurd rfl ho
    case fetchFail => simp [play, if_neg hpass]
    case decodeFail => simp [play, if_neg hpass]
    case startFail =>
      have hpass2 : ¬(s.transitionId + 1 ≠
          (applyEvs i2
            { applyEvs i1 (stop true { s with transitionId := s.transitionId + 1 }) with
              currentUrl := some url, state := .loading, audioContext := true }).transitionId) := by
        simp [applyEvs_transitionId, htid, hc1, hc2]
      simp [play, if_neg hpass, if_neg hpass2]

/-- C3 witness: a decode failure on a fresh manager rejects with the decode
error and leaves the manager idle with the source node cleared. -/
theorem play_failure_witness :
    (play "w.mp3" false [] [] .decodeFail AMState.init).2 = some .decodeFail ∧
    (play "w.mp3" false [] [] .decodeFail AMState.init).1.state = .idle ∧
    (play "w.mp3" false [] [] .decodeFail AMState.init).1.sourceNode = false := by
  have h2 := play_failure_cleans_up_and_propagates.2 "w.mp3" false [] [] .decodeFail AMState.init
    (by decide) (by simp) (by simp)
  have hp : play "w.mp3" false [] [] .decodeFail AMState.init
      = ((play "w.mp3" false [] [] .decodeFail AMState.init).1, some .decodeFail) := by
    rw [← h2]
  have h1 := play_failure_cleans_up_and_propagates.1 "w.mp3" false [] [] .decodeFail AMState.init
    _ .decodeFail hp
  exact ⟨h2, h1.2.1, h1.2.2.2.2.1⟩

end AudioManager

/-- C4 counterexample: the legacy `Reels.tsx` `startPlayback`, run on a
feed item with both a video and a resolved music track, ends with the video
element unmuted (`muted = false`) — the video element is not always kept
muted at the element level. -/
theorem ReelsLegacy.startPlayback_unmutes_video :
    ((ReelsLegacy.startPlayback
        { audioUnmuted := true, audioMuted := true, video := true,
          syncUnmuted := true, syncMuted := true }
        { video := some { muted := true, volume := 1, playing := false, currentTime := 0 }
          audio := some { muted := true, playing := false, currentTime := 0 }
          musicUrl := some "m.mp3"
          videoUrl := some "a.mp4"
          isMuted := false
          isPlaying := true
          pendingAutoPlay := false }).video.map fun v => v.muted) = some false := by
  decide

/-- C4 (amended): in the optimized Reels page the video element is always
kept muted: `startVideoPlayback` forces `muted = true` before and during
every play attempt (in every outcome), and `toggleMute` re-forces
`muted = true` on every mute toggle; the legacy `Reels.tsx` `startPlayback`
instead unmutes the video when a music track is present. -/
theorem ReelsOptimized.video_element_kept_muted :
    (∀ (ok1 ok2 : Bool) (v : ReelsOptimized.VideoEl),
        (ReelsOptimized.startVideoPlayback true ok1 ok2 v).muted = true) ∧
    (∀ p : ReelsOptimized.MuteState,
        ((ReelsOptimized.toggleMute p).video.all fun v => v.muted) = true) := by
  constructor
  · intro ok1 ok2 v
    unfold ReelsOptimized.startVideoPlayback
    split
    · simp_all
    · split
      · rfl
      · split <;> rfl
  · intro p
    cases hv : p.video <;> simp [ReelsOptimized.toggleMute, hv]

/-- C5 counterexample: after the first qualifying interaction (the
`onFirstInteract` handler has fired) with a resolved music track,
`startAudioPlayback` still issues no audio-engine playback attempt, because
`audioManagerRef.current` is initialized to null and never assigned — the
claimed immediately-issued deferred playback attempt does not happen. -/
theorem ReelsOptimized.no_deferred_engine_attempt_on_first_interaction :
    ReelsOptimized.engineAttempts
        (ReelsOptimized.onFirstInteract
          { hasUserInteracted := false, musicUrl := some "m.mp3",
            audioMgrPresent := ReelsOptimized.audioMgrInit, pendingAutoPlay := false }) = 0 ∧
    (ReelsOptimized.onFirstInteract
        { hasUserInteracted := false, musicUrl := some "m.mp3",
          audioMgrPresent := ReelsOptimized.audioMgrInit,
          pendingAutoPlay := false }).hasUserInteracted = true := by
  decide

/-- C5 (amended): the tap-to-enable-sound affordance is shown exactly until
the first qualifying interaction whenever a music track is resolved, and no
audio-engine playback attempt is ever issued — before or after the first
interaction — because `startAudioPlayback` is not gated on interaction but
on the engine reference, which keeps its initial null value. -/
theorem ReelsOptimized.overlay_until_interaction_no_engine_attempts :
    (∀ (u : String) (mgr pend : Bool),
        ReelsOptimized.overlayShown
          { hasUserInteracted := false, musicUrl := some u,
            audioMgrPresent := mgr, pendingAutoPlay := pend } = true) ∧
    (∀ (u : String) (mgr pend : Bool),
        ReelsOptimized.overlayShown
          { hasUserInteracted := true, musicUrl := some u,
            audioMgrPresent := mgr, pendingAutoPlay := pend } = false) ∧
    (∀ (inter pend : Bool) (mus : Option String),
        ReelsOptimized.engineAttempts
          { hasUserInteracted := inter, musicUrl := mus,
            audioMgrPresent := ReelsOptimized.audioMgrInit, pendingAutoPlay := pend } = 0) ∧
    (∀ p : ReelsOptimized.InteractState,
        (ReelsOptimized.onFirstInteract p).hasUserInteracted = true) := by
  refine ⟨fun u mgr pend => rfl, fun u mgr pend => rfl, ?_, fun p => rfl⟩
  intro inter pend mus
  cases mus <;> rfl

/-- C7 counterexample: the legacy `Reels.tsx` price mapping trusts field
order; for the raw record `(price = 500, sale_price = 800)` it resolves to
`{current := 800, original := 500}`, violating the claimed min/max
normalization. -/
theorem ReelsLegacy.price_not_normalized_cex :
    ReelsLegacy.resolvePrice 500 (some 800) = (800, some 500) ∧
    (ReelsLegacy.resolvePrice 500 (some 800)).1 ≠ min (500 : ℚ) 800 := by
  constructor
  · simp [ReelsLegacy.resolvePrice]
  · simp [ReelsLegacy.resolvePrice]
    norm_num

/-- C7 (amended): the optimized Reels page normalizes prices to
current = min / original = max, with `original` undefined when the
alternate value is absent or equal; the legacy `Reels.tsx` variant instead
trusts field order (`sale_price || price` / `sale_price ? price`). -/
theorem ReelsOptimized.price_normalization :
    (ReelsOptimized.resolvePrice (some 500) (some 800) = (500, some 800)) ∧
    (ReelsOptimized.resolvePrice (some 800) (some 500) = (500, some 800)) ∧
    (∀ p : Option ℚ, ReelsOptimized.resolvePrice p none = (p.getD 0, none)) ∧
    (∀ v : ℚ, ReelsOptimized.resolvePrice (some v) (some v) = (v, none)) ∧
    (∀ b a : ℚ, a ≠ b →
        ReelsOptimized.resolvePrice (some b) (some a) = (min b a, some (max b a))) := by
  refine ⟨?_, ?_, fun p => rfl, fun v => by simp [ReelsOptimized.resolvePrice], ?_⟩
  · simp [ReelsOptimized.resolvePrice]
    norm_num
  · simp [ReelsOptimized.resolvePrice]
    norm_num
  · intro b a hne
    simp [ReelsOptimized.resolvePrice, hne]

/-- C7 witness: the general min/max clause applied at the spec's example
input. -/
theorem ReelsOptimized.price_normalization_witness :
    ReelsOptimized.resolvePrice (some 300) (some 200) = (min 300 200, some (max 300 200)) :=
  ReelsOptimized.price_normalization.2.2.2.2 300 200 (by norm_num)

namespace ReelsOptimized

theorem handleNav_drop (d : Dir) (now : Int) (s : NavState)
    (h : now - s.lastScrollTime < scrollCooldown) : handleNav d now s = s := by
  unfold handleNav
  rw [if_pos (Or.inr h)]

theorem handleNav_commit (d : Dir) (now : Int) (s : NavState) (hlen : 1 ≤ s.len)
    (h : scrollCooldown ≤ now - s.lastScrollTime) : handleNav d now s = commitNav d now s := by
  unfold handleNav
  rw [if_neg]
  intro hc
  rcases hc with hc | hc
  · omega
  · omega

theorem processReqs_fix (reqs : List (Dir × Int)) (s : NavState)
    (h : ∀ r ∈ reqs, handleNav r.1 r.2 s = s) : processReqs reqs s = s := by
  induction reqs with
  | nil => rfl
  | cons r rs ih =>
      simp only [processReqs, List.foldl_cons]
      rw [h r (List.mem_cons_self r rs)]
      exact ih fun x hx => h x (List.mem_cons_of_mem _ hx)

/-- C6: navigation requests within one cool-down window collapse to exactly
the first commit — a request arriving before the cool-down elapses is
dropped, not queued — while requests each spaced at least one cool-down
apart all commit independently. -/
theorem nav_cooldown_commits :
    (∀ (s : NavState) (d : Dir) (t : Int) (reqs : List (Dir × Int)),
        1 ≤ s.len → scrollCooldown ≤ t - s.lastScrollTime →
        (∀ r ∈ reqs, r.2 - t < scrollCooldown) →
        processReqs ((d, t) :: reqs) s = commitNav d t s) ∧
    (∀ (s : NavState) (reqs : List (Dir × Int)),
        1 ≤ s.len → Spaced s.lastScrollTime reqs →
        (processReqs reqs s).commits = s.commits + reqs.length) := by
  constructor
  · intro s d t reqs hlen hfirst hwin
    have hstep : processReqs ((d, t) :: reqs) s = processReqs reqs (commitNav d t s) := by
      simp only [processReqs, List.foldl_cons]
      rw [handleNav_commit d t s hlen hfirst]
    rw [hstep]
    apply processReqs_fix
    intro r hr
    apply handleNav_drop
    show r.2 - t < scrollCooldown
    exact hwin r hr
  · intro s reqs
    induction reqs generalizing s with
    | nil => intro _ _; rfl
    | cons r rs ih =>
        intro hlen hsp
        obtain ⟨hgap, hsp'⟩ := hsp
        have hcommit := handleNav_commit r.1 r.2 s hlen hgap
        simp only [processReqs, List.foldl_cons] at ih ⊢
        rw [hcommit]
        have hlen' : 1 ≤ (commitNav r.1 r.2 s).len := hlen
        have hsp'' : Spaced (commitNav r.1 r.2 s).lastScrollTime rs := hsp'
        have := ih (commitNav r.1 r.2 s) hlen' hsp''
        rw [this]
        show s.commits + 1 + rs.length = s.commits + (rs.length + 1)
        omega

/-- C6 witness: with the cool-down of 900ms, two requests 200ms apart
commit once; two requests 1000ms apart commit twice. -/
theorem nav_cooldown_witness :
    processReqs [(.next, 1000), (.next, 1200)]
        { lastScrollTime := 0, index := 0, len := 3, commits := 0 }
      = commitNav .next 1000 { lastScrollTime := 0, index := 0, len := 3, commits := 0 } ∧
    (processReqs [(.next, 1000), (.next, 2000)]
        { lastScrollTime := 0, index := 0, len := 3, commits := 0 }).commits = 2 := by
  constructor
  · exact nav_cooldown_commits.1 _ .next 1000 [(.next, 1200)] (by decide) (by decide)
      (by intro r hr; simp at hr; rw [hr]; decide)
  · exact nav_cooldown_commits.2 _ [(.next, 1000), (.next, 2000)] (by decide)
      ⟨by decide, by decide, trivial⟩

end ReelsOptimized

namespace ReelsOptimized

instance : IsTotal MusicRow prioLE :=
  ⟨fun a b => Int.le_total a.rowPrio b.rowPrio⟩

instance : IsTrans MusicRow prioLE :=
  ⟨fun _ _ _ hab hbc => le_trans hab hbc⟩

theorem queryProductMusic_head_min (db : List MusicRow) (pid : Int) (row : MusicRow)
    (h : (queryProductMusic db pid).head? = some row) :
    row ∈ db ∧ row.product_id = pid ∧ row.is_active = true ∧
      ∀ r ∈ db, r.product_id = pid → r.is_active = true → row.rowPrio ≤ r.rowPrio := by
  unfold queryProductMusic at h
  have hsorted := List.sorted_insertionSort prioLE
    (db.filter fun r => r.product_id = pid ∧ r.is_active = true)
  cases hs : (db.filter fun r => r.product_id = pid ∧ r.is_active = true).insertionSort prioLE with
  | nil => rw [hs] at h; simp at h
  | cons x tl =>
      rw [hs] at h
      simp only [List.take, List.head?] at h
      have hxr : row = x := by
        injection h with h
        exact h.symm
      subst hxr
      rw [hs] at hsorted
      have hmem : row ∈ (db.filter fun r => r.product_id = pid ∧ r.is_active = true) := by
        rw [← List.mem_insertionSort prioLE, hs]
        exact List.mem_cons_self _ _
      rw [List.mem_filter] at hmem
      obtain ⟨hdb, hpred⟩ := hmem
      simp only [decide_eq_true_eq] at hpred
      refine ⟨hdb, hpred.1, hpred.2, ?_⟩
      intro r hr hrpid hract
      have hrl : r ∈ (db.filter fun r => r.product_id = pid ∧ r.is_active = true) := by
        rw [List.mem_filter]
        exact ⟨hr, by simp [hrpid, hract]⟩
      rw [← List.mem_insertionSort prioLE, hs] at hrl
      rcases List.mem_cons.mp hrl with hrl | hrl
      · rw [hrl]
      · exact List.rel_of_sorted_cons hsorted r hrl

/-- C9: the music resolver uses an embedded `music.url` directly without
issuing the lookup query; a non-numeric product id resolves to no music
without querying; an empty result resolves to no music (a value, not a
failure) after querying; and any resolved track comes from an active row of
the database matching the product id with minimal priority. -/
theorem music_resolver_fallback_order :
    (∀ (m : EmbeddedMusic) (pid : Option PidRaw) (db : List MusicRow) (qe : Bool),
        (resolveMusic (some m) pid db qe).2 = false ∧
        ((resolveMusic (some m) pid db qe).1.map fun t => t.url) = some m.url) ∧
    (∀ (s : String) (db : List MusicRow) (qe : Bool), jsNumber s = none →
        fetchMusic (some (.str s)) db qe = (none, false)) ∧
    (∀ (pid : Int) (db : List MusicRow),
        (db.filter fun r => r.product_id = pid ∧ r.is_active = true) = [] →
        resolveMusic none (some (.num pid)) db false = (none, true)) ∧
    (∀ (pid : Int) (db : List MusicRow) (sel : MusicSel),
        (resolveMusic none (some (.num pid)) db false).1 = some sel →
        ∃ row ∈ db, row.product_id = pid ∧ row.is_active = true ∧
          row.audio_url = some sel.url ∧
          ∀ r ∈ db, r.product_id = pid → r.is_active = true → row.rowPrio ≤ r.rowPrio) := by
  refine ⟨fun m pid db qe => ⟨rfl, rfl⟩, ?_, ?_, ?_⟩
  · intro s db qe h
    simp [fetchMusic, toNumberPid, h]
  · intro pid db h
    simp only [resolveMusic, fetchMusic, toNumberPid, queryProductMusic]
    rw [h]
    rfl
  · intro pid db sel h
    cases hq : (queryProductMusic db pid).head? with
    | none => simp [resolveMusic, fetchMusic, toNumberPid, hq] at h
    | some row =>
        cases hau : row.audio_url with
        | none => simp [resolveMusic, fetchMusic, toNumberPid, hq, hau] at h
        | some u =>
            simp [resolveMusic, fetchMusic, toNumberPid, hq, hau] at h
            obtain ⟨hdb, hpid, hact, hmin⟩ := queryProductMusic_head_min db pid row hq
            refine ⟨row, hdb, hpid, hact, ?_, hmin⟩
            rw [hau, ← h]

/-- C9 witness: the minimal-priority clause applied to a two-row database
whose lower-priority row is listed second, and the non-numeric clause at a
non-numeric id. -/
theorem music_resolver_witness :
    fetchMusic (some (.str "fr52x")) [] false = (none, false) ∧
    (∃ row ∈ [
        { product_id := 7, is_active := true, audio_url := some "x.mp3", title := none,
          artist := none, start_at_seconds := none, end_at_seconds := none,
          rowPrio := 2 : MusicRow },
        { product_id := 7, is_active := true, audio_url := some "y.mp3", title := none,
          artist := none, start_at_seconds := none, end_at_seconds := none,
          rowPrio := 1 : MusicRow }],
        row.product_id = 7 ∧ row.is_active = true ∧
        row.audio_url = some "y.mp3" ∧
        ∀ r ∈ [
          { product_id := 7, is_active := true, audio_url := some "x.mp3", title := none,
            artist := none, start_at_seconds := none, end_at_seconds := none,
            rowPrio := 2 : MusicRow },
          { product_id := 7, is_active := true, audio_url := some "y.mp3", title := none,
            artist := none, start_at_seconds := none, end_at_seconds := none,
            rowPrio := 1 : MusicRow }],
          r.product_id = 7 → r.is_active = true → row.rowPrio ≤ r.rowPrio) := by
  constructor
  · exact music_resolver_fallback_order.2.1 "fr52x" [] false (by decide)
  · exact music_resolver_fallback_order.2.2.2 7 _
      { url := "y.mp3", title := "Background Music", artist := "Ehsaas Jewels",
        startAt := some 0, endAt := none } (by decide)

end ReelsOptimized

namespace ReelsOptimized

theorem reelWindowUrls_subset (r : CacheReel) (u : String) (h : u ∈ reelWindowUrls r) :
    u ∈ reelAllUrls r := by
  simp only [reelWindowUrls] at h
  simp only [reelAllUrls]
  rcases List.mem_cons.mp h with h | h
  · exact List.mem_cons.mpr (Or.inl h)
  · refine List.mem_cons.mpr (Or.inr ?_)
    rcases List.mem_append.mp h with h | h
    · rcases List.mem_append.mp h with h | h
      · exact List.mem_append.mpr (Or.inl (List.mem_append.mpr
          (Or.inl (List.mem_of_mem_take h))))
      · exact List.mem_append.mpr (Or.inl (List.mem_append.mpr (Or.inr h)))
    · exact List.mem_append.mpr (Or.inr h)

theorem mem_urlsInWindow (reels : List CacheReel) (k : Nat) (url : String)
    (h : url ∈ urlsInWindow reels k) :
    ∃ i, minKeep k ≤ i ∧ i ≤ maxKeep reels.length k ∧ i < reels.length ∧
      url ∈ reelAllUrls (reels.getD i emptyReel) := by
  unfold urlsInWindow at h
  obtain ⟨i, hi, hurl⟩ := List.mem_flatMap.mp h
  unfold keepIndices at hi
  rw [List.mem_filter] at hi
  obtain ⟨hrange, hcond⟩ := hi
  rw [List.mem_range] at hrange
  simp only [decide_eq_true_eq] at hcond
  exact ⟨i, hcond.1, hcond.2, hrange, reelWindowUrls_subset _ _ hurl⟩

theorem wf_preloadImage (u : String) (c : MediaCache) (h : CacheWF c) :
    CacheWF (preloadImage u c) := by
  unfold preloadImage
  split
  · exact h
  · exact h

theorem wf_addPrefetch (u : String) (c : MediaCache) (h : CacheWF c) :
    CacheWF (addPrefetch u c) := by
  unfold addPrefetch
  split
  · exact h
  · exact h

theorem wf_preloadVideo (u : String) (c : MediaCache) (h : CacheWF c) :
    CacheWF (preloadVideo u c) := by
  unfold preloadVideo
  split
  · exact h
  · intro rec hrec hnot
    rcases List.mem_cons.mp hrec with hrec | hrec
    · exfalso
      apply hnot
      rw [hrec]
      exact List.mem_cons_self _ _
    · exact h rec hrec fun hv => hnot (List.mem_cons_of_mem _ hv)

theorem wf_foldl_preloadImage (us : List String) (c : MediaCache) (h : CacheWF c) :
    CacheWF (us.foldl (fun c u => preloadImage u c) c) := by
  induction us generalizing c with
  | nil => exact h
  | cons u us ih => exact ih _ (wf_preloadImage u c h)

theorem wf_preloadReel (r : CacheReel) (c : MediaCache) (h : CacheWF c) :
    CacheWF (preloadReel r c) := by
  unfold preloadReel
  have h1 := wf_foldl_preloadImage (reelImageUrls r) c h
  have h2 : CacheWF (match r.videoUrl with
      | some u => preloadVideo u ((reelImageUrls r).foldl (fun c u => preloadImage u c) c)
      | none => (reelImageUrls r).foldl (fun c u => preloadImage u c) c) := by
    cases r.videoUrl with
    | none => exact h1
    | some u => exact wf_preloadVideo u _ h1
  cases r.musicUrl with
  | none => exact h2
  | some u => exact wf_addPrefetch u _ h2

theorem wf_runPreloads (reels : List CacheReel) (k : Nat) (c : MediaCache) (h : CacheWF c) :
    CacheWF (runPreloads reels k c) := by
  unfold runPreloads
  generalize preloadIndices reels.length k = idxs
  induction idxs generalizing c with
  | nil => exact h
  | cons i idxs ih => exact ih _ (wf_preloadReel _ c h)

theorem wf_pruneCaches (reels : List CacheReel) (k : Nat) (c : MediaCache) (h : CacheWF c) :
    CacheWF (pruneCaches reels k c) := by
  intro rec hrec hnot
  obtain ⟨rec0, hrec0, hfeq⟩ := List.mem_map.mp hrec
  by_cases hcase : rec0.url ∈ c.videoUrls ∧ rec0.url ∉ urlsInWindow reels k
  · rw [← hfeq, if_pos hcase]
  · rw [← hfeq, if_neg hcase] at hnot ⊢
    by_cases hv : rec0.url ∈ c.videoUrls
    · have hwin : rec0.url ∈ urlsInWindow reels k := by
        by_contra hnw
        exact hcase ⟨hv, hnw⟩
      exact absurd (List.mem_filter.mpr ⟨hv, by simp [hwin]⟩) hnot
    · exact h rec0 hrec0 hv

/-- C8: after the preload/prune effect settles at index `k` on a non-empty
feed, the image and the video preload caches hold only URLs that belong to
a reel whose index lies in `[max(0, k-1), min(L-1, k+2)]`, and every video
element no longer cached has had its `src` cleared and been unloaded
(well-formedness is preserved across every navigation). -/
theorem cache_window_bound (reels : List CacheReel) (k : Nat) (c : MediaCache)
    (hne : reels ≠ []) (hwf : CacheWF c) :
    (∀ url ∈ (cacheStep reels k c).images,
        ∃ i, minKeep k ≤ i ∧ i ≤ maxKeep reels.length k ∧ i < reels.length ∧
          url ∈ reelAllUrls (reels.getD i emptyReel)) ∧
    (∀ url ∈ (cacheStep reels k c).videoUrls,
        ∃ i, minKeep k ≤ i ∧ i ≤ maxKeep reels.length k ∧ i < reels.length ∧
          url ∈ reelAllUrls (reels.getD i emptyReel)) ∧
    CacheWF (cacheStep reels k c) := by
  have hstep : cacheStep reels k c = pruneCaches reels k (runPreloads reels k c) := by
    unfold cacheStep
    rw [if_neg]
    simp [List.isEmpty_iff, hne]
  rw [hstep]
  refine ⟨?_, ?_, wf_pruneCaches reels k _ (wf_runPreloads reels k c hwf)⟩
  · intro url hurl
    have := List.mem_filter.mp hurl
    simp only [decide_eq_true_eq] at this
    exact mem_urlsInWindow reels k url this.2
  · intro url hurl
    have := List.mem_filter.mp hurl
    simp only [decide_eq_true_eq] at this
    exact mem_urlsInWindow reels k url this.2

end ReelsOptimized

namespace ReelsOptimized

/-- A small concrete feed used to exercise the cache-window theorem. -/
def demoReels : List CacheReel :=
  [{ posterImage := "p0.jpg", galleryImages := ["g0a.jpg", "g0b.jpg", "g0c.jpg"],
     videoUrl := some "v0.mp4", musicUrl := some "m0.mp3" },
   { posterImage := "p1.jpg", galleryImages := [], videoUrl := none, musicUrl := none },
   { posterImage := "p2.jpg", galleryImages := ["g2a.jpg"], videoUrl := some "v2.mp4",
     musicUrl := none },
   { posterImage := "p3.jpg", galleryImages := [], videoUrl := some "v3.mp4",
     musicUrl := none }]

/-- A cache still holding index 0's resources before navigating to index 2. -/
def demoCache : MediaCache :=
  { images := ["p0.jpg"]
    videoUrls := ["v0.mp4"]
    videoElems := [{ url := "v0.mp4", srcCleared := false }]
    prefetch := [] }

/-- C8 witness: the window-bound theorem applied after navigating the demo
feed to index 2 with index 0's video still cached. -/
theorem cache_window_bound_witness :
    CacheWF (cacheStep demoReels 2 demoCache) ∧
    (∃ i, minKeep 2 ≤ i ∧ i ≤ maxKeep demoReels.length 2 ∧ i < demoReels.length ∧
      "p1.jpg" ∈ reelAllUrls (demoReels.getD i emptyReel)) := by
  have h := cache_window_bound demoReels 2 demoCache (by decide) (by unfold CacheWF; decide)
  refine ⟨h.2.2, h.1 "p1.jpg" ?_⟩
  decide

end ReelsOptimized

namespace AudioManager

/-- C10 witness: the no-ramp theorem applied to a freshly constructed
manager (whose `sound` field is indeed unassigned). -/
theorem fadeTo_immediate_witness :
    fadeTo 0 1 AMState.init = { AMState.init with fadeTimeout := false } ∧
    stop true AMState.init = stop false AMState.init := by
  have h := fadeTo_immediate_no_ramp AMState.init
  exact ⟨(h.2 rfl).1 0 1, (h.2 rfl).2.1⟩

end AudioManager
